import Mathlib

/-!
Verification of the ML core of the `nba-predictor` repository.

The Python source under `backend/app/ml/` is shallowly embedded here:
pandas DataFrames become association-list tables over `Option ℚ` cells
(`none` models a NaN / missing value), fitted regression models become
opaque functions from feature vectors to rationals, and every control-flow
branch of the embedded functions mirrors the corresponding branch of the
Python code (`predictor.py`, `ensemble_points.py`,
`points_feature_engineer.py`).
-/

set_option maxRecDepth 1000000

attribute [local semireducible] Rat.add Rat.mul Rat.sub Rat.inv Rat.ofScientific

deriving instance DecidableEq for Except

namespace NBA

/-- One table cell.  `some q` is a concrete number, `none` models a pandas
NaN (or a value absent from the row). -/
abbrev Cell := Option ℚ

/-- One DataFrame row: an association list from column name to cell. -/
abbrev Row := List (String × Cell)

/-- A pandas DataFrame: a list of rows that all share the same columns. -/
abbrev Frame := List Row

namespace Row

/-- Value of column `c` in row `r`; `none` when the cell is NaN or the
column is absent. -/
def get (r : Row) (c : String) : Cell :=
  match r.find? (fun p => p.1 == c) with
  | some p => p.2
  | none => none

/-- Whether the row carries column `c` at all (even with a NaN cell). -/
def has (r : Row) (c : String) : Bool :=
  (r.find? (fun p => p.1 == c)).isSome

/-- Column assignment on one row: replace the column if present, append it
otherwise (mirrors `df[c] = value` for one row). -/
def set (r : Row) (c : String) (v : Cell) : Row :=
  match r with
  | [] => [(c, v)]
  | p :: ps => if p.1 == c then (c, v) :: ps else p :: set ps c v

end Row

namespace Frame

/-- Column membership, `c in df.columns`; decided on the first row since
all rows share the same columns. -/
def hasCol (df : Frame) (c : String) : Bool :=
  match df with
  | [] => false
  | r :: _ => r.has c

/-- Extract a column as a series. -/
def getCol (df : Frame) (c : String) : List Cell :=
  df.map (fun r => r.get c)

/-- Column assignment `df[c] = vs` (the series `vs` has one value per
row). -/
def setCol (df : Frame) (c : String) (vs : List Cell) : Frame :=
  df.zipWith (fun r v => r.set c v) vs

/-- A constant column, e.g. `df['rest_days'] = 1`. -/
def constCol (df : Frame) (q : ℚ) : List Cell :=
  List.replicate df.length (some q)

end Frame

/-- The non-null values of a series (pandas aggregations skip NaN). -/
def nnVals (xs : List Cell) : List ℚ := xs.filterMap id

/-- Mean of the non-null entries of a series slice; `none` when every
entry is null (pandas returns NaN then). -/
def cmean (xs : List Cell) : Cell :=
  let vs := nnVals xs
  if vs.length = 0 then none else some (vs.sum / vs.length)

/-- `series.rolling(window=w, min_periods=1).mean()`: at index `i` the
mean of the non-null values among the last `w` positions ending at `i`. -/
def rollingMean (w : ℕ) (xs : List Cell) : List Cell :=
  (List.range xs.length).map (fun i => cmean ((xs.take (i + 1)).drop (i + 1 - w)))

/-- `series.expanding().mean()`: at index `i` the mean of the non-null
values among positions `0..i`. -/
def expandingMean (xs : List Cell) : List Cell :=
  (List.range xs.length).map (fun i => cmean (xs.take (i + 1)))

/-- `series.shift(1)`: push every value one row down; the first row
becomes NaN. -/
def shift1 (xs : List Cell) : List Cell := (none :: xs).dropLast

/-- Python `int(q)` / `astype(int)`: truncation toward zero. -/
def pyInt (q : ℚ) : ℤ := if 0 ≤ q then ⌊q⌋ else -⌊-q⌋

/-- Ordering used by `sort_values('game_date')`; NaN dates sort last. -/
def cellLE : Cell → Cell → Bool
  | none, none => true
  | none, some _ => false
  | some _, none => true
  | some a, some b => a ≤ b

/-- Insert into a list sorted by `le`, keeping the inserted element before
later equal keys (stability). -/
def insertBy (le : α → α → Bool) (x : α) : List α → List α
  | [] => [x]
  | y :: ys => if le x y then x :: y :: ys else y :: insertBy le x ys

/-- Insertion sort by `le`. -/
def sortBy (le : α → α → Bool) : List α → List α
  | [] => []
  | x :: xs => insertBy le x (sortBy le xs)

/-- `df.sort_values('game_date')`. -/
def sortValuesByDate (df : Frame) : Frame :=
  sortBy (fun r s => cellLE (r.get "game_date") (s.get "game_date")) df

/-! ## `SafePerformancePredictor` feature construction (`predictor.py`) -/

/-- Rolling windows used by `create_features`. -/
def windows : List ℕ := [5, 10, 15]

/-- The raw statistic columns and their feature-name prefixes used by
`create_features`. -/
def statCols : List (String × String) :=
  [("points", "pts"), ("rebounds", "reb"), ("assists", "ast"), ("minutes", "min")]

/-- Shooting-percentage columns given a 10-game rolling average. -/
def pctCols : List String := ["fg_pct", "fg3_pct", "ft_pct"]

/-- The body of the rolling-average loop of `create_features`: one
(column, prefix) pair for one window length. -/
def rollingStep (w : ℕ) (df : Frame) (cp : String × String) : Frame :=
  if df.hasCol cp.1 then
    df.setCol (cp.2 ++ "_avg_" ++ toString w) (shift1 (rollingMean w (df.getCol cp.1)))
  else df

/-- The body of the shooting-percentage loop of `create_features`. -/
def pctStep (df : Frame) (c : String) : Frame :=
  if df.hasCol c then
    df.setCol (c ++ "_avg_10") (shift1 (rollingMean 10 (df.getCol c)))
  else df

/-- The body of the season-average (expanding mean) loop of
`create_features`. -/
def seasonStep (df : Frame) (cp : String × String) : Frame :=
  if df.hasCol cp.1 then
    df.setCol ("season_" ++ cp.2 ++ "_avg") (shift1 (expandingMean (df.getCol cp.1)))
  else df

/-- `SafePerformancePredictor.create_features`: rolling averages over
windows 5/10/15 shifted by one game, 10-game shifted rolling averages of
the shooting percentages, shifted expanding (season) means, and the
context columns `rest_days` / `is_home` / `opponent_def_rating` with
their defaults. -/
def createFeatures (statsDf : Frame) : Frame :=
  if statsDf.length = 0 then statsDf else
  let df := if statsDf.hasCol "game_date" then sortValuesByDate statsDf else statsDf
  let df := windows.foldl (fun df w => statCols.foldl (rollingStep w) df) df
  let df := pctCols.foldl pctStep df
  let df := statCols.foldl seasonStep df
  let df := if df.hasCol "rest_days" then df else df.setCol "rest_days" (df.constCol 1)
  let df :=
    if df.hasCol "is_home" then
      df.setCol "is_home" ((df.getCol "is_home").map (Option.map (fun q => (pyInt q : ℚ))))
    else df.setCol "is_home" (df.constCol 1)
  let df :=
    if df.hasCol "opponent_def_rating" then df
    else df.setCol "opponent_def_rating" (df.constCol 110)
  df

/-- `self.base_feature_columns`: context features shared by all targets. -/
def baseFeatureColumns : List String := ["is_home", "rest_days", "opponent_def_rating"]

/-- `self.target_specific_features`: per-target historical feature lists. -/
def targetSpecificFeatures : List (String × List String) :=
  [("points", ["pts_avg_5", "pts_avg_10", "pts_avg_15",
               "min_avg_5", "min_avg_10",
               "season_pts_avg", "season_min_avg",
               "fg_pct_avg_10", "fg3_pct_avg_10", "ft_pct_avg_10"]),
   ("rebounds", ["reb_avg_5", "reb_avg_10", "reb_avg_15",
                 "min_avg_5", "min_avg_10",
                 "season_reb_avg", "season_min_avg"]),
   ("assists", ["ast_avg_5", "ast_avg_10", "ast_avg_15",
                "min_avg_5", "min_avg_10",
                "season_ast_avg", "season_min_avg"])]

/-- `self.target_columns`. -/
def targetColumns : List String := ["points", "rebounds", "assists"]

/-- `SafePerformancePredictor._get_features_for_target`. -/
def getFeaturesForTarget (target : String) : List String :=
  baseFeatureColumns ++ ((targetSpecificFeatures.lookup target).getD [])

/-- The raw same-game box-score columns that `create_features` consumes. -/
def rawBoxScoreColumns : List String := statCols.map Prod.fst ++ pctCols

/-- Which raw statistic each derived feature of `create_features` is a
lagged aggregate of, generated from the same window/column lists that
`createFeatures` folds over. -/
def featureSources : List (String × String) :=
  (windows.flatMap (fun w => statCols.map (fun cp => (cp.2 ++ "_avg_" ++ toString w, cp.1))))
  ++ pctCols.map (fun c => (c ++ "_avg_10", c))
  ++ statCols.map (fun cp => ("season_" ++ cp.2 ++ "_avg", cp.1))

/-! ## Target validation and leakage audit (`predictor.py`) -/

/-- Severity of a log record emitted by the training pipeline. -/
inductive LogLevel where
  | info
  | warn
  | err
deriving DecidableEq, Repr

/-- `SafePerformancePredictor._validate_target_column`; the extreme-value
branch only logs a warning, so it does not appear as an error case. -/
def validateTarget (df : Frame) (target : String) : Except String Unit :=
  if ¬ df.hasCol target then
    .error ("Target column " ++ target ++ " not found in dataframe")
  else
    let values := nnVals (df.getCol target)
    if values.length = 0 then
      .error ("Target column " ++ target ++ " has no valid values")
    else if 0 < values.countP (fun v => v < 0) then
      .error ("negative values in " ++ target)
    else .ok ()

/-- Python `needle in hay` on strings. -/
def strContains (hay needle : String) : Bool :=
  (List.range (hay.toList.length + 1)).any (fun i => needle.toList.isPrefixOf (hay.toList.drop i))

/-- `abs(series_x.corr(series_y)) > t`, decided without square roots:
over the pairwise complete observations, `|corr| > t` iff
`cov² > t² · var_x · var_y`; a zero variance makes the pandas correlation
NaN, in which case every comparison is false. -/
def corrGT (xs ys : List Cell) (t : ℚ) : Bool :=
  let ps : List (ℚ × ℚ) := (xs.zip ys).filterMap (fun p =>
    match p.1, p.2 with
    | some a, some b => some (a, b)
    | _, _ => none)
  let n : ℚ := (ps.length : ℚ)
  let sx : ℚ := (ps.map Prod.fst).sum
  let sy : ℚ := (ps.map Prod.snd).sum
  let sxx : ℚ := n * (ps.map (fun p => p.1 * p.1)).sum - sx * sx
  let syy : ℚ := n * (ps.map (fun p => p.2 * p.2)).sum - sy * sy
  let sxy : ℚ := n * (ps.map (fun p => p.1 * p.2)).sum - sx * sy
  if sxx = 0 ∨ syy = 0 then false
  else decide (t * t * sxx * syy < sxy * sxy)

/-- `SafePerformancePredictor._check_feature_leakage`: a pure logging
function.  It returns the list of log records it emits — a name-heuristic
hit logs a warning, correlation above 0.99 logs at error level, above
0.95 a warning — and offers no error/exception result at all. -/
def checkFeatureLeakage (features : List String) (target : String) (df : Frame) :
    List (LogLevel × String) :=
  if ¬ df.hasCol target then [] else
  features.flatMap (fun feature =>
    if ¬ df.hasCol feature then [] else
    (if strContains feature target
        && !(["avg", "season", "rolling"].any (fun x => strContains feature x)) then
       [(LogLevel.warn, "SUSPICIOUS: Feature " ++ feature ++ " contains " ++ target)]
     else []) ++
    (if corrGT (df.getCol feature) (df.getCol target) (99/100) then
       [(LogLevel.err, "CRITICAL LEAKAGE: Feature " ++ feature)]
     else if corrGT (df.getCol feature) (df.getCol target) (95/100) then
       [(LogLevel.warn, "HIGH CORRELATION: Feature " ++ feature)]
     else []))

/-! ## Training (`predictor.py`) -/

/-- `df.dropna(subset=cols)`. -/
def dropnaSubset (df : Frame) (cols : List String) : Frame :=
  df.filter (fun r => cols.all (fun c => (r.get c).isSome))

/-- `SafePerformancePredictor.MODEL_VERSION`. -/
def MODEL_VERSION : String := "2.0.0"

/-- The artifact persisted per target by `train` (the `model_package`
dict).  The fitted XGBoost regressor itself is opaque to the claims; it
is abstracted by the number of cleaned training rows it was fitted on. -/
structure ModelPackage where
  features : List String
  target : String
  version : String
  trainRows : ℕ
deriving DecidableEq, Repr

/-- Result of one iteration of the `train` loop: the log records emitted
and, when the target trained successfully, the persisted package. -/
structure TrainOutcome where
  logs : List (LogLevel × String)
  package : Option ModelPackage
deriving DecidableEq, Repr

/-- `features_present = [f for f in features if f in df.columns]` for a
target's feature list. -/
def featuresPresentFor (df : Frame) (target : String) : List String :=
  (getFeaturesForTarget target).filter (fun f => df.hasCol f)

/-- One iteration of the `for target in self.target_columns` loop of
`SafePerformancePredictor.train` (the body of its `try`): validation,
feature selection, leakage audit, dropna, minimum-sample floor, then fit
and persist.  A `ValueError` from validation is caught by the `except`
and ends the iteration with no package; the `< 3` features and `< 100`
rows branches `continue` with no package; the XGBoost fit itself always
succeeds and is opaque here. -/
def trainTarget (df : Frame) (target : String) : TrainOutcome :=
  match validateTarget df target with
  | .error e => ⟨[(.err, e)], none⟩
  | .ok _ =>
    let featuresPresent := featuresPresentFor df target
    if featuresPresent.length < 3 then
      ⟨[(.warn, "Not enough features for " ++ target)], none⟩
    else
      let lk := checkFeatureLeakage featuresPresent target df
      let dfClean := dropnaSubset df (target :: featuresPresent)
      if dfClean.length < 100 then
        ⟨lk ++ [(.warn, "Insufficient data for " ++ target)], none⟩
      else
        ⟨lk, some ⟨featuresPresent, target, MODEL_VERSION, dfClean.length⟩⟩

/-- `SafePerformancePredictor.train`: build features once, then run the
per-target loop; every failing target is skipped (`continue`) and the
remaining targets still train and persist. -/
def train (statsDf : Frame) : List (String × ModelPackage) :=
  let df := createFeatures statsDf
  targetColumns.filterMap (fun t => (trainTarget df t).package.map (fun p => (t, p)))

/-! ## Model loading (`predictor.py`) -/

/-- A per-target artifact file as `joblib.load` returns it: either a bare
legacy regressor, or a dict package whose `target` / `features` /
`version` entries may each be absent (`none`). -/
inductive Artifact where
  | legacy
  | package (target : Option String) (features : Option (List String)) (version : Option String)
deriving DecidableEq, Repr

/-- Python truthiness of the `stored_target` value: `None` and the empty
string are falsy. -/
def pyTruthyStr : Option String → Bool
  | none => false
  | some s => !(s == "")

/-- The target-binding test of `load_models`: the artifact is rejected
exactly when `stored_target` is truthy and differs from the slot. -/
def bindingOk : Option String → String → Bool
  | none, _ => true
  | some s, target => !(!(s == "") && !(s == target))

/-- The `for target in self.target_columns` loop of `load_models`: a
missing file returns `False`, a dict package with a truthy mismatching
`target` returns `False`, anything else is accepted and the loop
continues. -/
def loadLoop (files : String → Option Artifact) : List String → Bool
  | [] => true
  | t :: ts =>
    match files t with
    | none => false
    | some .legacy => loadLoop files ts
    | some (.package stored _ _) =>
      if bindingOk stored t then loadLoop files ts else false

/-- `SafePerformancePredictor.load_models` called on a fresh predictor
(`self._models_loaded == False`), as a function of what `joblib.load`
finds at each target's path.  The metrics and ensemble loading that
follow the loop cannot change the Boolean result. -/
def loadModels (files : String → Option Artifact) : Bool :=
  loadLoop files targetColumns

/-! ## Ensemble combiner (`ensemble_points.py`) -/

/-- `EnsemblePointsPredictor` state at prediction time: up to four fitted
sub-models (opaque functions over the reindexed feature vector), the
training feature-name list, and the fixed combination weights. -/
structure Ensemble where
  xgbModel : Option (List Cell → ℚ)
  lgbmModel : Option (List Cell → ℚ)
  starModel : Option (List Cell → ℚ)
  roleModel : Option (List Cell → ℚ)
  features : List String
  wXgb : ℚ
  wLgbm : ℚ
  wArch : ℚ

/-- The missing-feature loop of `EnsemblePointsPredictor.predict`: every
expected feature absent from the row is assigned the neutral value 0. -/
def Ensemble.fillMissing (e : Ensemble) (row : Row) : Row :=
  e.features.foldl (fun r f => if r.has f then r else r.set f (some 0)) row

/-- `features = features[self.features]`: the reindexed vector handed to
every sub-model, after zero-filling the missing columns. -/
def Ensemble.vectorFor (e : Ensemble) (row : Row) : List Cell :=
  e.features.map (fun f => (e.fillMissing row).get f)

/-- The archetype sub-model prediction of `EnsemblePointsPredictor.predict`:
selected by the player's season PPG around the 25 / 15 thresholds, absent
when the PPG is unknown, in the middle band, or the selected model was
never trained. -/
def Ensemble.archetypePred (e : Ensemble) (v : List Cell) (playerAvgPpg : Option ℚ) : Option ℚ :=
  match playerAvgPpg with
  | none => none
  | some a =>
    if a > 25 then e.starModel.map (fun m => m v)
    else if a < 15 then e.roleModel.map (fun m => m v)
    else none

/-- The `predictions` / `weights` pairs accumulated by
`EnsemblePointsPredictor.predict`: one entry per present sub-model, in
the XGBoost, LightGBM, archetype order of the source. -/
def Ensemble.subPredictions (e : Ensemble) (row : Row) (playerAvgPpg : Option ℚ) :
    List (ℚ × ℚ) :=
  let v := e.vectorFor row
  (match e.xgbModel with
   | some m => [(m v, e.wXgb)]
   | none => []) ++
  (match e.lgbmModel with
   | some m => [(m v, e.wLgbm)]
   | none => []) ++
  (match e.archetypePred v playerAvgPpg with
   | some p => [(p, e.wArch)]
   | none => [])

/-- `EnsemblePointsPredictor.predict`: divide the weighted sum of the
present sub-model predictions by the weight sum, fall back to 15.0 when
no sub-model is present, and floor the result at zero. -/
def Ensemble.predict (e : Ensemble) (row : Row) (playerAvgPpg : Option ℚ) : ℚ :=
  let pw := e.subPredictions row playerAvgPpg
  let finalPred : ℚ :=
    if pw.length ≠ 0 then ((pw.map (fun p => p.1 * p.2)).sum) / ((pw.map Prod.snd).sum)
    else 15
  max 0 finalPred

/-! ## Prediction and bounding layer (`predictor.py`) -/

/-- `SafePerformancePredictor.POSITION_BOUNDS`. -/
def POSITION_BOUNDS : List (String × List (String × ℕ × ℕ)) :=
  [("PG", [("points", (0, 50)), ("rebounds", (0, 10)), ("assists", (0, 20))]),
   ("SG", [("points", (0, 55)), ("rebounds", (0, 12)), ("assists", (0, 15))]),
   ("SF", [("points", (0, 50)), ("rebounds", (0, 15)), ("assists", (0, 12))]),
   ("PF", [("points", (0, 45)), ("rebounds", (0, 20)), ("assists", (0, 10))]),
   ("C", [("points", (0, 45)), ("rebounds", (0, 25)), ("assists", (0, 12))]),
   ("G", [("points", (0, 55)), ("rebounds", (0, 12)), ("assists", (0, 20))]),
   ("F", [("points", (0, 50)), ("rebounds", (0, 18)), ("assists", (0, 12))]),
   ("G-F", [("points", (0, 50)), ("rebounds", (0, 15)), ("assists", (0, 15))]),
   ("F-G", [("points", (0, 50)), ("rebounds", (0, 15)), ("assists", (0, 15))]),
   ("F-C", [("points", (0, 45)), ("rebounds", (0, 22)), ("assists", (0, 10))]),
   ("C-F", [("points", (0, 45)), ("rebounds", (0, 22)), ("assists", (0, 10))])]

/-- `SafePerformancePredictor.DEFAULT_BOUNDS`. -/
def DEFAULT_BOUNDS : List (String × ℕ × ℕ) :=
  [("points", (0, 60)), ("rebounds", (0, 25)), ("assists", (0, 20))]

/-- `self.POSITION_BOUNDS.get(position, self.DEFAULT_BOUNDS)` (a `None`
position also falls back to the defaults). -/
def posBounds (position : Option String) : List (String × ℕ × ℕ) :=
  match position with
  | none => DEFAULT_BOUNDS
  | some p => (POSITION_BOUNDS.lookup p).getD DEFAULT_BOUNDS

/-- Python `round(x, 1)`, over exact rationals. -/
def round1 (q : ℚ) : ℚ := ((round (10 * q) : ℤ) : ℚ) / 10

/-- One entry of the returned predictions dict. -/
structure PredRes where
  predicted : ℚ
  lower : ℚ
  upper : ℚ
deriving DecidableEq, Repr

/-- The clipping and interval construction shared verbatim by the
ensemble and standard branches of `predict`: clip the raw output into the
position box, then report `pred ± 1.96 · std` re-clipped below at 0 and
above at the position ceiling, all rounded to one decimal. -/
def boundResult (raw : ℚ) (minBound maxBound : ℕ) (stdEstimate : ℚ) : PredRes :=
  let pred := max (minBound : ℚ) (min raw (maxBound : ℚ))
  ⟨round1 pred,
   round1 (max 0 (pred - (49/25) * stdEstimate)),
   round1 (min (maxBound : ℚ) (pred + (49/25) * stdEstimate))⟩

/-- The predictor as loaded for serving: per-target fitted models
(opaque functions of the feature vector), per-target stored feature
lists, per-target held-out MAE (`metrics[target].get('mae', 3.0)`; the
outer `none` is a target absent from metrics, the inner `none` a metrics
entry without an `mae` key), and the optional points ensemble
(`self._ensemble_loaded` holds exactly when it is present). -/
structure PredictorState where
  models : List (String × (List Cell → ℚ))
  featureSets : List (String × List String)
  maeMetrics : List (String × Option ℚ)
  pointsEnsemble : Option Ensemble

/-- `SafePerformancePredictor._estimate_prediction_std`. -/
def estimateStd (s : PredictorState) (target : String) : ℚ :=
  match s.maeMetrics.lookup target with
  | some maeOpt => (maeOpt.getD 3) * (5/4)
  | none => 3

/-- The non-ensemble branch of the per-target loop of `predict`: stored
feature list (falling back to `_get_features_for_target`), keep the
features present in the row, skip the target when none are, otherwise
predict and bound. -/
def predictStandard (s : PredictorState) (latest : Row) (bounds : List (String × ℕ × ℕ))
    (target : String) (model : List Cell → ℚ) : Option PredRes :=
  let features := (s.featureSets.lookup target).getD (getFeaturesForTarget target)
  let featuresPresent := features.filter (fun f => latest.has f)
  if featuresPresent.length = 0 then none
  else
    let X := featuresPresent.map (fun f => latest.get f)
    let raw := model X
    let bp := (bounds.lookup target).getD (0, 100)
    some (boundResult raw bp.1 bp.2 (estimateStd s target))

/-- One iteration of the `for target in self.target_columns` loop of
`predict`: skip a target with no model; route points through the loaded
ensemble when present (its `try` body cannot fail in this embedding, so
the fallback to the standard branch is never taken). -/
def predictTarget (s : PredictorState) (latest : Row) (bounds : List (String × ℕ × ℕ))
    (target : String) : Option PredRes :=
  match s.models.lookup target with
  | none => none
  | some model =>
    match s.pointsEnsemble with
    | some e =>
      if target = "points" then
        let ppg : Option ℚ := if latest.has "season_pts_avg" then latest.get "season_pts_avg" else none
        let raw := e.predict latest ppg
        let bp := (bounds.lookup "points").getD (0, 60)
        some (boundResult raw bp.1 bp.2 (estimateStd s "points"))
      else predictStandard s latest bounds target model
    | none => predictStandard s latest bounds target model

/-- The context override of `predict`: the latest feature row with
`is_home`, `rest_days` and `opponent_def_rating` replaced by the values
supplied for the upcoming game. -/
def latestRow (lastRow : Row) (isHome : Bool) (restDays oppDefRating : ℚ) : Row :=
  ((lastRow.set "is_home" (some (if isHome then 1 else 0))).set
      "rest_days" (some restDays)).set "opponent_def_rating" (some oppDefRating)

/-- `SafePerformancePredictor.predict` on a loaded predictor: build the
feature table, take the last row, override the context columns with the
upcoming game's values, then run the per-target loop under the
position-conditioned bounds. -/
def SafePerformancePredictor.predict (s : PredictorState) (playerStats : Frame)
    (position : Option String) (isHome : Bool) (restDays : ℚ) (oppDefRating : ℚ) :
    List (String × PredRes) :=
  match (createFeatures playerStats).getLast? with
  | none => []
  | some lastRow =>
    targetColumns.filterMap (fun t =>
      (predictTarget s (latestRow lastRow isHome restDays oppDefRating)
          (posBounds position) t).map (fun r => (t, r)))

/-! ## Situational features of `points_feature_engineer.py` -/

/-- Mean of the player's points over the games with the given `is_home`
flag — `df[df['is_home'] == v].groupby('player_id')['points'].transform('mean')`
restricted to one player's rows.  Note the absence of any `shift`. -/
def homeFilterMean (df : Frame) (homeFlag : ℚ) : Cell :=
  cmean ((df.filter (fun r => r.get "is_home" == some homeFlag)).map (fun r => r.get "points"))

/-- `PointsFeatureEngineer._create_situational_features` on one player's
rows: the home/away scoring averages (full-sample means, unshifted),
their difference with NaN treated as 0, and the rest-day indicators.  The
calendar branch (`day_of_week`, `month`) is independent of the box-score
statistics and is not needed by any claim, so it is not embedded. -/
def createSituationalFeatures (df : Frame) : Frame :=
  let df :=
    if df.hasCol "is_home" then
      let homeMean := homeFilterMean df 1
      let awayMean := homeFilterMean df 0
      let homeCol := df.map (fun r => if r.get "is_home" == some 1 then homeMean else none)
      let awayCol := df.map (fun r => if r.get "is_home" == some 0 then awayMean else none)
      let df := df.setCol "home_pts_avg" homeCol
      let df := df.setCol "away_pts_avg" awayCol
      df.setCol "home_away_diff"
        (List.zipWith (fun h a => some (h.getD 0 - a.getD 0)) homeCol awayCol)
    else df
  if df.hasCol "rest_days" then
    let df := df.setCol "back_to_back"
      ((df.getCol "rest_days").map (fun c => some (if c == some 0 then 1 else 0)))
    df.setCol "well_rested"
      ((df.getCol "rest_days").map (fun c =>
        some (if (c.getD (-1)) ≥ 3 then (1 : ℚ) else 0)))
  else df

/-- An artifact that `load_models` accepts into any slot without a
binding check: a legacy (non-dict) artifact, or a dict package whose
stored `target` entry is falsy (`None` or the empty string). -/
def unbound : Artifact → Bool
  | .legacy => true
  | .package stored _ _ => !(pyTruthyStr stored)

/-! ## Concrete evaluation inputs -/

/-- A minimal single-statistic game history: one row per game carrying
only the player's points. -/
def mkStats (pts : List ℚ) : Frame :=
  pts.map (fun p => [("points", some p)])

/-- A 102-game history whose rebounds grow linearly (game `i` has `i`
rebounds) and whose assists are constant.  The shifted expanding mean of
a linear series is again linear in the target, so the leakage audit sees
a correlation of exactly 1 for `season_reb_avg`; the points column is
absent entirely. -/
def leakFrame : Frame :=
  (List.range 102).map (fun i => [("rebounds", some (i : ℚ)), ("assists", some 10)])

/-- Two two-game home histories that agree on game 1 and differ only in
game 2's points (20 vs 30). -/
def histA : Frame :=
  [[("is_home", some 1), ("points", some 10)],
   [("is_home", some 1), ("points", some 20)]]

/-- See `histA`. -/
def histB : Frame :=
  [[("is_home", some 1), ("points", some 10)],
   [("is_home", some 1), ("points", some 30)]]

/-- An ensemble whose only sub-model (XGBoost) predicts −5, with the
fixed 0.4/0.4/0.2 weights. -/
def ensembleNeg : Ensemble :=
  ⟨some (fun _ => -5), none, none, none, [], 2/5, 2/5, 1/5⟩

/-- An ensemble with XGBoost, LightGBM and star sub-models predicting
10 / 20 / 30, with the fixed 0.4/0.4/0.2 weights. -/
def ensembleFull : Ensemble :=
  ⟨some (fun _ => 10), some (fun _ => 20), some (fun _ => 30), none, ["f1", "f2"],
   2/5, 2/5, 1/5⟩

/-- A loaded predictor with a single points model (constant 20) bound to
the one stored feature `season_pts_avg`, no metrics, no ensemble. -/
def predictorFixture : PredictorState :=
  ⟨[("points", fun _ => 20)], [("points", ["season_pts_avg"])], [], none⟩

/-- A one-game history for `predictorFixture`. -/
def statsFixture : Frame := [[("points", some 12)]]

/-! # Lemmas and claim theorems -/

theorem loadLoop_false_of_mismatch (files : String → Option Artifact) (l : List String)
    (t : String) (ht : t ∈ l) (s : String) (f : Option (List String)) (v : Option String)
    (hf : files t = some (.package (some s) f v)) (hs1 : s ≠ "") (hst : s ≠ t) :
    loadLoop files l = false := by
  induction l with
  | nil => cases ht
  | cons a as ih =>
    rcases List.mem_cons.mp ht with rfl | hmem
    · rw [loadLoop, hf]
      have hb : bindingOk (some s) t = false := by
        simp [bindingOk, hs1, hst]
      simp [hb]
    · rw [loadLoop]
      cases hfa : files a with
      | none => rfl
      | some art =>
        cases art with
        | legacy => exact ih hmem
        | package stored fs vs =>
          by_cases hb : bindingOk stored a = true
          · simp [hb, ih hmem]
          · simp only [Bool.not_eq_true] at hb
            simp [hb]

theorem loadLoop_true_of_unbound (files : String → Option Artifact) (l : List String)
    (h : ∀ t ∈ l, (files t).any unbound = true) :
    loadLoop files l = true := by
  induction l with
  | nil => rfl
  | cons a as ih =>
    have ha := h a (List.mem_cons_self a as)
    rw [loadLoop]
    cases hfa : files a with
    | none => rw [hfa] at ha; simp [Option.any] at ha
    | some art =>
      rw [hfa] at ha
      cases art with
      | legacy => exact ih (fun t htm => h t (List.mem_cons_of_mem a htm))
      | package stored fs vs =>
        have hst : pyTruthyStr stored = false := by
          simpa [Option.any, unbound] using ha
        have hb : bindingOk stored a = true := by
          cases stored with
          | none => rfl
          | some sv =>
            simp only [pyTruthyStr, Bool.not_eq_false] at hst
            simp [bindingOk, hst]
        simp [hb, ih (fun t htm => h t (List.mem_cons_of_mem a htm))]

/-- C1.  If any per-target artifact is a dict package that stores a
non-empty target name different from the slot it is loaded into, then
`load_models` returns `False` — it never silently substitutes. -/
theorem loadModels_rejects_target_mismatch (files : String → Option Artifact)
    (t : String) (ht : t ∈ targetColumns) (s : String)
    (f : Option (List String)) (v : Option String)
    (hf : files t = some (.package (some s) f v))
    (hs1 : s ≠ "") (hst : s ≠ t) :
    loadModels files = false :=
  loadLoop_false_of_mismatch files targetColumns t ht s f v hf hs1 hst

theorem loadModels_rejects_target_mismatch_witness :
    loadModels (fun t => if t == "points" then some (.package (some "rebounds") none none)
      else some .legacy) = false :=
  loadModels_rejects_target_mismatch _ "points" (by decide) "rebounds" none none rfl
    (by decide) (by decide)

/-- C10.  If every per-target artifact is a legacy (non-dict) artifact or
a dict package whose stored `target` entry is falsy (`None` or empty),
`load_models` accepts them all with no target-binding verification and
returns `True`; the binding check only ever fires on a dict artifact with
a truthy stored target name. -/
theorem loadModels_accepts_unbound_artifacts (files : String → Option Artifact)
    (h : ∀ t ∈ targetColumns, (files t).any unbound = true) :
    loadModels files = true :=
  loadLoop_true_of_unbound files targetColumns h

theorem loadModels_accepts_unbound_artifacts_witness :
    loadModels (fun t =>
      if t == "points" then some (.package none none none)
      else if t == "rebounds" then some (.package (some "") (some []) (some "1.0"))
      else some .legacy) = true :=
  loadModels_accepts_unbound_artifacts _ (by decide)

/-- C6.  For distinct targets T1 ≠ T2 the feature list served for T1
holds no raw same-game column at all (in particular neither T2's raw
statistic nor T1's own current-game value); every non-context entry is a
lagged aggregate whose source statistic is T1's own statistic, minutes,
or a shooting percentage — never T2's statistic. -/
theorem targetFeatureIsolation :
    ∀ t1 ∈ targetColumns, ∀ t2 ∈ targetColumns, t1 ≠ t2 →
      ∀ f ∈ getFeaturesForTarget t1,
        f ∉ rawBoxScoreColumns ∧
        (f ∈ baseFeatureColumns ∨
          (featureSources.lookup f ≠ none ∧
           ((featureSources.lookup f).getD "" = t1 ∨
            (featureSources.lookup f).getD "" ∈ ["minutes", "fg_pct", "fg3_pct", "ft_pct"]) ∧
           (featureSources.lookup f).getD "" ≠ t2)) := by decide

theorem targetFeatureIsolation_witness :
    "pts_avg_5" ∉ rawBoxScoreColumns ∧
    ("pts_avg_5" ∈ baseFeatureColumns ∨
      (featureSources.lookup "pts_avg_5" ≠ none ∧
       ((featureSources.lookup "pts_avg_5").getD "" = "points" ∨
        (featureSources.lookup "pts_avg_5").getD "" ∈ ["minutes", "fg_pct", "fg3_pct", "ft_pct"]) ∧
       (featureSources.lookup "pts_avg_5").getD "" ≠ "rebounds")) :=
  targetFeatureIsolation "points" (by decide) "rebounds" (by decide) (by decide)
    "pts_avg_5" (by decide)

theorem Row.get_set_self (r : Row) (c : String) (v : Cell) :
    (r.set c v).get c = v := by
  induction r with
  | nil => simp [Row.set, Row.get]
  | cons p ps ih =>
    by_cases hk : p.1 = c
    · simp [Row.set, hk, Row.get]
    · simp only [Row.set, beq_iff_eq, hk, if_false]
      simp only [Row.get, List.find?]
      have : (p.1 == c) = false := by simp [hk]
      rw [this]
      exact ih

theorem Row.get_set_ne (r : Row) (c c' : String) (v : Cell) (h : c' ≠ c) :
    (r.set c v).get c' = r.get c' := by
  have h1 : (c == c') = false := beq_eq_false_iff_ne.mpr (Ne.symm h)
  induction r with
  | nil =>
    simp only [Row.set, Row.get, List.find?, h1]
  | cons p ps ih =>
    by_cases hk : p.1 = c
    · have h2 : (p.1 == c') = false := by
        rw [hk]
        exact h1
      simp only [Row.set, beq_iff_eq, hk, if_true]
      simp only [Row.get, List.find?, h1, h2]
    · simp only [Row.set, beq_iff_eq, hk, if_false]
      simp only [Row.get, List.find?]
      cases hpc : (p.1 == c') with
      | true => rfl
      | false => exact ih

theorem Row.has_set (r : Row) (c c' : String) (v : Cell) :
    (r.set c v).has c' = (r.has c' || c' == c) := by
  induction r with
  | nil =>
    simp only [Row.set, Row.has, List.find?]
    by_cases hcc : c = c'
    · subst hcc; simp
    · have h1 : (c == c') = false := beq_eq_false_iff_ne.mpr hcc
      have h2 : (c' == c) = false := beq_eq_false_iff_ne.mpr (Ne.symm hcc)
      simp [h1, h2]
  | cons p ps ih =>
    by_cases hk : p.1 = c
    · simp only [Row.set, beq_iff_eq, hk, if_true]
      simp only [Row.has, List.find?]
      by_cases hcc : c = c'
      · subst hcc
        simp [hk]
      · have h1 : (c == c') = false := beq_eq_false_iff_ne.mpr hcc
        have h2 : (p.1 == c') = false := by rw [hk]; exact h1
        have h3 : (c' == c) = false := beq_eq_false_iff_ne.mpr (Ne.symm hcc)
        simp [h1, h2, h3]
    · simp only [Row.set, beq_iff_eq, hk, if_false]
      simp only [Row.has, List.find?]
      cases hpc : (p.1 == c') with
      | true => simp
      | false =>
        simp only [Option.isSome]
        exact ih

theorem zeroFillGet (names : List String) (row : Row) (c : String) :
    (names.foldl (fun r f => if r.has f then r else r.set f (some 0)) row).get c =
      if row.has c then row.get c else if c ∈ names then some 0 else none := by
  induction names generalizing row with
  | nil =>
    by_cases hc : row.has c
    · simp [hc]
    · simp only [List.foldl_nil, hc, if_false, List.not_mem_nil]
      simp only [Row.get, Row.has] at hc ⊢
      cases hf : row.find? (fun p => p.1 == c) with
      | none => simp
      | some p => rw [hf] at hc; simp at hc
  | cons f fs ih =>
    simp only [List.foldl_cons]
    by_cases hrf : row.has f
    · rw [if_pos hrf, ih row]
      by_cases hc : row.has c
      · simp [hc]
      · by_cases hcf : c = f
        · subst hcf; exact absurd hrf (by simp [hc])
        · simp [hc, hcf]
    · rw [if_neg hrf, ih (row.set f (some 0))]
      by_cases hcf : c = f
      · subst hcf
        have h1 : (row.set c (some 0)).has c = true := by
          rw [Row.has_set]; simp
        have h2 : row.has c = false := by simpa using hrf
        rw [h1, if_pos rfl, Row.get_set_self, h2]
        simp
      · rw [Row.has_set _ _ _ _, Row.get_set_ne _ _ _ _ hcf]
        have : (c == f) = false := by simp [hcf]
        rw [this, Bool.or_false]
        by_cases hc : row.has c
        · simp [hc]
        · simp [hc, hcf]

theorem Ensemble.vectorFor_eq (e : Ensemble) (row : Row) :
    e.vectorFor row =
      e.features.map (fun f => if row.has f then row.get f else some 0) := by
  unfold Ensemble.vectorFor Ensemble.fillMissing
  refine List.map_congr_left (fun f hf => ?_)
  rw [zeroFillGet]
  by_cases hc : row.has f
  · simp [hc]
  · simp [hc, hf]

theorem list_sum_div (l : List ℚ) (c : ℚ) :
    (l.map (fun x => x / c)).sum = l.sum / c := by
  induction l with
  | nil => simp
  | cons x xs ih => simp [ih, add_div]

theorem subPredictions_weight_pos (e : Ensemble) (row : Row) (ppg : Option ℚ)
    (h1 : e.wXgb = 2/5) (h2 : e.wLgbm = 2/5) (h3 : e.wArch = 1/5) :
    ∀ p ∈ e.subPredictions row ppg, 0 < p.2 := by
  intro p hp
  unfold Ensemble.subPredictions at hp
  rcases List.mem_append.mp hp with hp' | hp'
  · rcases List.mem_append.mp hp' with hx | hl
    · cases hm : e.xgbModel with
      | none => rw [hm] at hx; simp at hx
      | some m =>
        rw [hm] at hx
        simp only [List.mem_singleton] at hx
        subst hx
        rw [h1]
        norm_num
    · cases hm : e.lgbmModel with
      | none => rw [hm] at hl; simp at hl
      | some m =>
        rw [hm] at hl
        simp only [List.mem_singleton] at hl
        subst hl
        rw [h2]
        norm_num
  · cases hm : e.archetypePred (e.vectorFor row) ppg with
    | none => rw [hm] at hp'; simp at hp'
    | some q =>
      rw [hm] at hp'
      simp only [List.mem_singleton] at hp'
      subst hp'
      rw [h3]
      norm_num

/-- C4 counterexample.  With a single present sub-model predicting −5 the
renormalized weighted average of the present sub-models is −5, but the
combiner returns 0 (its output is floored at zero), so the result is not
the weighted average itself. -/
theorem ensemblePredict_not_weighted_average :
    Ensemble.predict ensembleNeg [] none = 0 ∧
    Ensemble.subPredictions ensembleNeg [] none = [(-5, 2/5)] ∧
    ((-5 : ℚ) * (2/5)) / (2/5) = -5 ∧ (0 : ℚ) ≠ -5 := by
  refine ⟨?_, ?_, by norm_num, by norm_num⟩
  · simp [Ensemble.predict, Ensemble.subPredictions, Ensemble.archetypePred,
      ensembleNeg, Ensemble.vectorFor, Ensemble.fillMissing]
    norm_num
  · simp [Ensemble.subPredictions, Ensemble.archetypePred, ensembleNeg,
      Ensemble.vectorFor, Ensemble.fillMissing]

/-- C4 (amended).  For every subset of present sub-models the combiner
returns a defined, non-negative value; with at least one present
sub-model the result is the weighted average of the present sub-model
outputs under the fixed 0.4/0.4/0.2 weights renormalized to sum to 1,
floored at zero; with no present sub-model it returns the default
estimate `max 0 15 = 15`. -/
theorem ensemblePredict_weighted_props (e : Ensemble) (row : Row) (ppg : Option ℚ)
    (h1 : e.wXgb = 2/5) (h2 : e.wLgbm = 2/5) (h3 : e.wArch = 1/5) :
    0 ≤ e.predict row ppg ∧
    (e.subPredictions row ppg = [] → e.predict row ppg = 15) ∧
    (e.subPredictions row ppg ≠ [] →
      (((e.subPredictions row ppg).map
          (fun p => p.2 / ((e.subPredictions row ppg).map Prod.snd).sum)).sum = 1 ∧
       e.predict row ppg =
         max 0 (((e.subPredictions row ppg).map
           (fun p => (p.2 / ((e.subPredictions row ppg).map Prod.snd).sum) * p.1)).sum))) := by
  refine ⟨le_max_left 0 _, fun hemp => ?_, fun hne => ?_⟩
  · unfold Ensemble.predict
    rw [hemp]
    norm_num
  · have hpos := subPredictions_weight_pos e row ppg h1 h2 h3
    set pw := e.subPredictions row ppg with hpw
    have hwpos : ∀ x ∈ pw.map Prod.snd, 0 < x := by
      intro x hx
      rcases List.mem_map.mp hx with ⟨p, hp, rfl⟩
      exact hpos p hp
    have hsumpos : 0 < (pw.map Prod.snd).sum :=
      List.sum_pos _ hwpos (by simpa using hne)
    constructor
    · have : pw.map (fun p => p.2 / (pw.map Prod.snd).sum) =
          (pw.map Prod.snd).map (fun x => x / (pw.map Prod.snd).sum) := by
        rw [List.map_map]
        rfl
      rw [this, list_sum_div, div_self (ne_of_gt hsumpos)]
    · unfold Ensemble.predict
      rw [← hpw]
      have hlen : pw.length ≠ 0 := by
        simpa [List.length_eq_zero] using hne
      simp only [hlen, if_true, ne_eq, not_false_eq_true]
      congr 1
      have : pw.map (fun p => (p.2 / (pw.map Prod.snd).sum) * p.1) =
          (pw.map (fun p => p.1 * p.2)).map (fun x => x / (pw.map Prod.snd).sum) := by
        rw [List.map_map]
        refine List.map_congr_left (fun p hp => ?_)
        simp only [Function.comp]
        rw [mul_comm (p.2 / (List.map Prod.snd pw).sum) p.1, mul_div_assoc]
      rw [this, list_sum_div]

theorem ensemblePredict_weighted_props_witness :
    0 ≤ Ensemble.predict ensembleFull [] (some 26) ∧
    (Ensemble.subPredictions ensembleFull [] (some 26) = [] →
      Ensemble.predict ensembleFull [] (some 26) = 15) ∧
    (Ensemble.subPredictions ensembleFull [] (some 26) ≠ [] →
      (((Ensemble.subPredictions ensembleFull [] (some 26)).map
          (fun p => p.2 / ((Ensemble.subPredictions ensembleFull [] (some 26)).map Prod.snd).sum)).sum = 1 ∧
       Ensemble.predict ensembleFull [] (some 26) =
         max 0 (((Ensemble.subPredictions ensembleFull [] (some 26)).map
           (fun p => (p.2 / ((Ensemble.subPredictions ensembleFull [] (some 26)).map Prod.snd).sum) * p.1)).sum))) :=
  ensemblePredict_weighted_props ensembleFull [] (some 26) rfl rfl rfl

theorem lookup_snd_mem {β : Type} (l : List (String × β)) (a : String) (b : β)
    (h : l.lookup a = some b) : b ∈ l.map Prod.snd := by
  induction l with
  | nil => simp [List.lookup] at h
  | cons p ps ih =>
    rcases p with ⟨k, v⟩
    simp only [List.lookup] at h
    cases hk : (a == k) with
    | true =>
      rw [hk] at h
      injection h with h
      simp [h]
    | false =>
      rw [hk] at h
      simpa using Or.inr (ih h)

theorem posBounds_fst_eq_zero (pos : Option String) (t : String) (dflt : ℕ × ℕ)
    (hd : dflt.1 = 0) : (((posBounds pos).lookup t).getD dflt).1 = 0 := by
  have hall : ∀ b ∈ (posBounds pos).map Prod.snd, b.1 = 0 := by
    cases pos with
    | none => decide
    | some ps =>
      intro b hb
      simp only [posBounds] at hb
      cases hl : POSITION_BOUNDS.lookup ps with
      | none =>
        rw [hl] at hb
        simp only [Option.getD] at hb
        exact (by decide : ∀ b ∈ DEFAULT_BOUNDS.map Prod.snd, b.1 = 0) b hb
      | some tbl =>
        rw [hl] at hb
        simp only [Option.getD] at hb
        have hmem : tbl ∈ POSITION_BOUNDS.map Prod.snd := lookup_snd_mem _ _ _ hl
        have h2 : ∀ tb ∈ POSITION_BOUNDS.map Prod.snd, ∀ b ∈ tb.map Prod.snd, b.1 = 0 := by
          decide
        exact h2 tbl hmem b hb
  cases hlk : (posBounds pos).lookup t with
  | none => simpa [hlk] using hd
  | some b =>
    have : b ∈ (posBounds pos).map Prod.snd := lookup_snd_mem _ _ _ hlk
    simpa [hlk] using hall b this

theorem round1_mono {x y : ℚ} (h : x ≤ y) : round1 x ≤ round1 y := by
  unfold round1
  have h10 : (10 : ℚ) * x ≤ 10 * y := by linarith
  have : round ((10 : ℚ) * x) ≤ round ((10 : ℚ) * y) := by
    rw [round_eq, round_eq]
    exact Int.floor_le_floor (by linarith)
  have hc : ((round ((10 : ℚ) * x) : ℤ) : ℚ) ≤ ((round ((10 : ℚ) * y) : ℤ) : ℚ) := by
    exact_mod_cast this
  linarith

theorem round1_nonneg {x : ℚ} (h : 0 ≤ x) : 0 ≤ round1 x := by
  have h0 : round1 0 = 0 := by
    unfold round1
    norm_num
  rw [← h0]
  exact round1_mono h

theorem round1_natCast (n : ℕ) : round1 (n : ℚ) = n := by
  unfold round1
  have : (10 : ℚ) * (n : ℚ) = ((10 * n : ℕ) : ℚ) := by push_cast; ring
  rw [this, round_natCast]
  push_cast
  ring

theorem round1_le_natCast {x : ℚ} (n : ℕ) (h : x ≤ (n : ℚ)) : round1 x ≤ (n : ℚ) := by
  have := round1_mono h
  rwa [round1_natCast] at this

theorem boundResult_props (raw : ℚ) (maxB : ℕ) (σ : ℚ) (hσ : 0 ≤ σ) :
    (boundResult raw 0 maxB σ).lower ≤ (boundResult raw 0 maxB σ).predicted ∧
    (boundResult raw 0 maxB σ).predicted ≤ (boundResult raw 0 maxB σ).upper ∧
    0 ≤ (boundResult raw 0 maxB σ).lower ∧
    (boundResult raw 0 maxB σ).upper ≤ (maxB : ℚ) ∧
    0 ≤ (boundResult raw 0 maxB σ).predicted ∧
    (boundResult raw 0 maxB σ).predicted ≤ (maxB : ℚ) := by
  unfold boundResult
  simp only
  set pred := max ((0 : ℕ) : ℚ) (min raw (maxB : ℚ)) with hpred
  have hpred0 : 0 ≤ pred := by
    rw [hpred]
    simp
  have hpredM : pred ≤ (maxB : ℚ) := by
    rw [hpred]
    apply max_le
    · exact_mod_cast Nat.cast_nonneg maxB
    · exact min_le_right _ _
  have hlow : max 0 (pred - 49/25 * σ) ≤ pred := by
    apply max_le hpred0
    nlinarith
  have hup : pred ≤ min (maxB : ℚ) (pred + 49/25 * σ) := by
    apply le_min hpredM
    nlinarith
  refine ⟨round1_mono hlow, round1_mono hup, round1_nonneg (le_max_left _ _), ?_, ?_, ?_⟩
  · exact round1_le_natCast maxB (min_le_left _ _)
  · exact round1_nonneg hpred0
  · exact round1_le_natCast maxB hpredM

theorem estimateStd_nonneg (s : PredictorState) (t : String)
    (hmae : ∀ t' q, s.maeMetrics.lookup t' = some (some q) → 0 ≤ q) :
    0 ≤ estimateStd s t := by
  unfold estimateStd
  cases hl : s.maeMetrics.lookup t with
  | none => norm_num
  | some maeOpt =>
    cases maeOpt with
    | none => norm_num
    | some q =>
      have := hmae t q hl
      simp only [Option.getD]
      nlinarith

theorem predict_mem_iff (s : PredictorState) (stats : Frame) (pos : Option String)
    (ihome : Bool) (rd od : ℚ) (t : String) (res : PredRes) :
    (t, res) ∈ SafePerformancePredictor.predict s stats pos ihome rd od ↔
      (t ∈ targetColumns ∧ ∃ lastRow, (createFeatures stats).getLast? = some lastRow ∧
        predictTarget s (latestRow lastRow ihome rd od) (posBounds pos) t = some res) := by
  unfold SafePerformancePredictor.predict
  cases hlast : (createFeatures stats).getLast? with
  | none => simp [hlast]
  | some lr =>
    simp only [List.mem_filterMap, Option.map_eq_some']
    constructor
    · rintro ⟨a, ha, r, hr, heq⟩
      injection heq with h1 h2
      subst h1
      subst h2
      exact ⟨ha, lr, rfl, hr⟩
    · rintro ⟨ht, lr', hlr', hpt⟩
      injection hlr' with hlr'
      subst hlr'
      exact ⟨t, ht, res, hpt, rfl⟩

/-- C9.  Inference-time degradation: (i) the feature vector the ensemble
hands its sub-models substitutes the neutral default 0 for every expected
feature column missing from the row, instead of failing; (ii) a target
with no loaded model is simply omitted from the predictions dict; (iii)
every other target's successful per-target prediction still appears in
the response. -/
theorem inference_degradation :
    (∀ (e : Ensemble) (row : Row),
       e.vectorFor row =
         e.features.map (fun f => if row.has f then row.get f else some 0)) ∧
    (∀ (s : PredictorState) (stats : Frame) (pos : Option String) (ihome : Bool)
       (rd od : ℚ) (t : String) (res : PredRes),
       s.models.lookup t = none →
       (t, res) ∉ SafePerformancePredictor.predict s stats pos ihome rd od) ∧
    (∀ (s : PredictorState) (stats : Frame) (pos : Option String) (ihome : Bool)
       (rd od : ℚ) (t : String) (lastRow : Row) (res : PredRes),
       t ∈ targetColumns →
       (createFeatures stats).getLast? = some lastRow →
       predictTarget s (latestRow lastRow ihome rd od) (posBounds pos) t = some res →
       (t, res) ∈ SafePerformancePredictor.predict s stats pos ihome rd od) := by
  refine ⟨Ensemble.vectorFor_eq, ?_, ?_⟩
  · intro s stats pos ihome rd od t res hnone hmem
    obtain ⟨-, lr, -, hpt⟩ := (predict_mem_iff s stats pos ihome rd od t res).mp hmem
    unfold predictTarget at hpt
    rw [hnone] at hpt
    simp at hpt
  · intro s stats pos ihome rd od t lastRow res ht hlast hpt
    exact (predict_mem_iff s stats pos ihome rd od t res).mpr ⟨ht, lastRow, hlast, hpt⟩

theorem inference_degradation_witness :
    (Ensemble.vectorFor ensembleFull [("f1", some 7)] = [some 7, some 0]) ∧
    (("rebounds", (⟨0, 0, 0⟩ : PredRes)) ∉
      SafePerformancePredictor.predict predictorFixture statsFixture none true 1 110) ∧
    (("points", (⟨20, 141/10, 259/10⟩ : PredRes)) ∈
      SafePerformancePredictor.predict predictorFixture statsFixture none true 1 110) := by
  refine ⟨(inference_degradation.1 ensembleFull [("f1", some 7)]).trans (by decide), ?_, ?_⟩
  · exact inference_degradation.2.1 predictorFixture statsFixture none true 1 110
      "rebounds" ⟨0, 0, 0⟩ rfl
  · exact inference_degradation.2.2 predictorFixture statsFixture none true 1 110
      "points" _ ⟨20, 141/10, 259/10⟩ (by decide) rfl (by decide)

/-- C5.  Every prediction the predictor returns satisfies
`lower ≤ predicted ≤ upper`; the point estimate is the raw model output
clipped into the (0, max) box looked up for the position and target, the
interval is `± 1.96 · (1.25 · MAE)` re-clipped at 0 below and at the
position ceiling above, and all three values lie inside the
position-conditioned box. -/
theorem prediction_bounds (s : PredictorState) (stats : Frame) (pos : Option String)
    (ihome : Bool) (rd od : ℚ) (t : String) (res : PredRes)
    (hmae : ∀ t' q, s.maeMetrics.lookup t' = some (some q) → 0 ≤ q)
    (hmem : (t, res) ∈ SafePerformancePredictor.predict s stats pos ihome rd od) :
    ∃ (raw : ℚ) (b dflt : ℕ × ℕ),
      (dflt = (0, 60) ∨ dflt = (0, 100)) ∧
      b = ((posBounds pos).lookup t).getD dflt ∧
      b.1 = 0 ∧
      res = boundResult raw b.1 b.2 (estimateStd s t) ∧
      res.lower ≤ res.predicted ∧ res.predicted ≤ res.upper ∧
      ((b.1 : ℚ) ≤ res.lower ∧ res.upper ≤ (b.2 : ℚ)) ∧
      ((b.1 : ℚ) ≤ res.predicted ∧ res.predicted ≤ (b.2 : ℚ)) := by
  have hσ : 0 ≤ estimateStd s t := estimateStd_nonneg s t hmae
  obtain ⟨ht, lr, hlast, hpt⟩ := (predict_mem_iff s stats pos ihome rd od t res).mp hmem
  unfold predictTarget at hpt
  cases hm : s.models.lookup t with
  | none => rw [hm] at hpt; simp at hpt
  | some model =>
    rw [hm] at hpt
    simp only at hpt
    have main : ∀ (raw : ℚ) (dflt : ℕ × ℕ), (dflt = (0, 60) ∨ dflt = (0, 100)) →
        res = boundResult raw (((posBounds pos).lookup t).getD dflt).1
          (((posBounds pos).lookup t).getD dflt).2 (estimateStd s t) →
        ∃ (raw' : ℚ) (b dflt' : ℕ × ℕ),
          (dflt' = (0, 60) ∨ dflt' = (0, 100)) ∧
          b = ((posBounds pos).lookup t).getD dflt' ∧
          b.1 = 0 ∧
          res = boundResult raw' b.1 b.2 (estimateStd s t) ∧
          res.lower ≤ res.predicted ∧ res.predicted ≤ res.upper ∧
          ((b.1 : ℚ) ≤ res.lower ∧ res.upper ≤ (b.2 : ℚ)) ∧
          ((b.1 : ℚ) ≤ res.predicted ∧ res.predicted ≤ (b.2 : ℚ)) := by
      intro raw dflt hdflt hres
      have hd0 : dflt.1 = 0 := by rcases hdflt with rfl | rfl <;> rfl
      have hb0 : (((posBounds pos).lookup t).getD dflt).1 = 0 :=
        posBounds_fst_eq_zero pos t dflt hd0
      rw [hb0] at hres
      have hprops := boundResult_props raw (((posBounds pos).lookup t).getD dflt).2
        (estimateStd s t) hσ
      rw [← hres] at hprops
      refine ⟨raw, ((posBounds pos).lookup t).getD dflt, dflt, hdflt, rfl, hb0, ?_, ?_⟩
      · rw [hb0, hres]
      · rw [hb0]
        push_cast
        exact ⟨hprops.1, hprops.2.1, ⟨hprops.2.2.1, hprops.2.2.2.1⟩,
          ⟨hprops.2.2.2.2.1, hprops.2.2.2.2.2⟩⟩
    cases he : s.pointsEnsemble with
    | some e =>
      rw [he] at hpt
      simp only at hpt
      by_cases htp : t = "points"
      · rw [if_pos htp] at hpt
        injection hpt with hpt
        subst htp
        exact main _ (0, 60) (Or.inl rfl) hpt.symm
      · rw [if_neg htp] at hpt
        simp only [predictStandard] at hpt
        split at hpt
        · exact absurd hpt (by simp)
        · injection hpt with hpt
          exact main _ (0, 100) (Or.inr rfl) hpt.symm
    | none =>
      rw [he] at hpt
      simp only [predictStandard] at hpt
      split at hpt
      · exact absurd hpt (by simp)
      · injection hpt with hpt
        exact main _ (0, 100) (Or.inr rfl) hpt.symm

theorem prediction_bounds_witness :
    ∃ (raw : ℚ) (b dflt : ℕ × ℕ),
      (dflt = (0, 60) ∨ dflt = (0, 100)) ∧
      b = ((posBounds (none : Option String)).lookup "points").getD dflt ∧
      b.1 = 0 ∧
      (⟨20, 141/10, 259/10⟩ : PredRes) =
        boundResult raw b.1 b.2 (estimateStd predictorFixture "points") ∧
      (⟨20, 141/10, 259/10⟩ : PredRes).lower ≤ (⟨20, 141/10, 259/10⟩ : PredRes).predicted ∧
      (⟨20, 141/10, 259/10⟩ : PredRes).predicted ≤ (⟨20, 141/10, 259/10⟩ : PredRes).upper ∧
      ((b.1 : ℚ) ≤ (⟨20, 141/10, 259/10⟩ : PredRes).lower ∧
       (⟨20, 141/10, 259/10⟩ : PredRes).upper ≤ (b.2 : ℚ)) ∧
      ((b.1 : ℚ) ≤ (⟨20, 141/10, 259/10⟩ : PredRes).predicted ∧
       (⟨20, 141/10, 259/10⟩ : PredRes).predicted ≤ (b.2 : ℚ)) :=
  prediction_bounds predictorFixture statsFixture none true 1 110 "points"
    ⟨20, 141/10, 259/10⟩ (fun t' q h => by simp [predictorFixture] at h) (by decide)

/-- C2 (code defect).  The situational features of the points feature
engineer are not lookback-only: `home_pts_avg` / `away_pts_avg` are
unshifted full-sample means, so `home_away_diff` attached to game 2
changes when game 2's own points change.  `histA` and `histB` agree on
game 1 and on game 2's `is_home` flag and differ only in game 2's points
(20 vs 30), yet game 2's `home_away_diff` is 15 in one and 20 in the
other. -/
theorem situational_features_leak_same_game :
    histA.take 1 = histB.take 1 ∧
    (histA[1]?).map (fun r => r.get "is_home") = (histB[1]?).map (fun r => r.get "is_home") ∧
    (histA[1]?).map (fun r => r.get "points") = some (some 20) ∧
    (histB[1]?).map (fun r => r.get "points") = some (some 30) ∧
    ((createSituationalFeatures histA).getCol "home_away_diff")[1]? = some (some 15) ∧
    ((createSituationalFeatures histB).getCol "home_away_diff")[1]? = some (some 20) := by
  decide

/-- C3 counterexample.  On a 102-game history whose shifted expanding
rebounds mean is a perfect linear function of the rebounds target
(correlation exactly 1 > 0.99), the leakage audit only emits an
error-level log record; the rebounds model is still trained and
persisted, so a detected leakage condition is not a hard failure. -/
theorem leakage_error_does_not_abort :
    (LogLevel.err, "CRITICAL LEAKAGE: Feature season_reb_avg")
        ∈ (trainTarget (createFeatures leakFrame) "rebounds").logs ∧
    (trainTarget (createFeatures leakFrame) "rebounds").package.isSome = true := by
  decide

/-- C3 (amended).  A detected leakage condition — correlation above 0.99
(error level) or 0.95 / a target-named feature without an aggregate
qualifier (warning level) — only contributes log records; whenever the
data conditions for training hold, the target's model is trained and
persisted regardless of any leakage findings. -/
theorem leakage_flags_logged_training_continues (df : Frame) (target : String)
    (hv : validateTarget df target = .ok ())
    (hf : ¬ (featuresPresentFor df target).length < 3)
    (hn : ¬ (dropnaSubset df (target :: featuresPresentFor df target)).length < 100) :
    (trainTarget df target).package =
      some ⟨featuresPresentFor df target, target, MODEL_VERSION,
            (dropnaSubset df (target :: featuresPresentFor df target)).length⟩ ∧
    (trainTarget df target).logs =
      checkFeatureLeakage (featuresPresentFor df target) target df := by
  simp only [trainTarget, hv]
  rw [if_neg hf, if_neg hn]
  exact ⟨rfl, rfl⟩

theorem leakage_flags_logged_training_continues_witness :
    (trainTarget (createFeatures leakFrame) "rebounds").package =
      some ⟨featuresPresentFor (createFeatures leakFrame) "rebounds", "rebounds", MODEL_VERSION,
            (dropnaSubset (createFeatures leakFrame)
              ("rebounds" :: featuresPresentFor (createFeatures leakFrame) "rebounds")).length⟩ ∧
    (trainTarget (createFeatures leakFrame) "rebounds").logs =
      checkFeatureLeakage (featuresPresentFor (createFeatures leakFrame) "rebounds") "rebounds"
        (createFeatures leakFrame) :=
  leakage_flags_logged_training_continues _ _ (by decide) (by decide) (by decide)

/-- C8.  The training loop handles each target independently: a target's
(target, package) pair appears in the result exactly when that target's
own iteration succeeds, so a data error on one target aborts training for
that target only and the remaining targets still train and persist. -/
theorem train_isolates_target_failures (statsDf : Frame) (t : String) (p : ModelPackage) :
    (t, p) ∈ train statsDf ↔
      (t ∈ targetColumns ∧ (trainTarget (createFeatures statsDf) t).package = some p) := by
  simp only [train, List.mem_filterMap, Option.map_eq_some']
  constructor
  · rintro ⟨a, ha, q, hq, heq⟩
    injection heq with h1 h2
    subst h1
    subst h2
    exact ⟨ha, hq⟩
  · rintro ⟨ht, hp⟩
    exact ⟨t, ht, p, hp, rfl⟩

theorem train_isolates_target_failures_witness :
    (trainTarget (createFeatures leakFrame) "points").package = none ∧
    ("rebounds", (⟨["is_home", "rest_days", "opponent_def_rating",
        "reb_avg_5", "reb_avg_10", "reb_avg_15", "season_reb_avg"],
        "rebounds", "2.0.0", 101⟩ : ModelPackage)) ∈ train leakFrame ∧
    ("assists", (⟨["is_home", "rest_days", "opponent_def_rating",
        "ast_avg_5", "ast_avg_10", "ast_avg_15", "season_ast_avg"],
        "assists", "2.0.0", 101⟩ : ModelPackage)) ∈ train leakFrame :=
  ⟨by decide,
   (train_isolates_target_failures leakFrame "rebounds" _).mpr ⟨by decide, by decide⟩,
   (train_isolates_target_failures leakFrame "assists" _).mpr ⟨by decide, by decide⟩⟩

theorem rollingMean_length (w : ℕ) (xs : List Cell) :
    (rollingMean w xs).length = xs.length := by
  simp [rollingMean]

theorem expandingMean_length (xs : List Cell) :
    (expandingMean xs).length = xs.length := by
  simp [expandingMean]

theorem shift1_length (xs : List Cell) : (shift1 xs).length = xs.length := by
  unfold shift1
  rw [List.length_dropLast, List.length_cons]
  omega

theorem Frame.getCol_length (df : Frame) (c : String) : (df.getCol c).length = df.length := by
  simp [Frame.getCol]

theorem Frame.setCol_length (df : Frame) (c : String) (vs : List Cell)
    (h : vs.length = df.length) : (df.setCol c vs).length = df.length := by
  simp [Frame.setCol, h]

theorem Frame.setCol_ne_nil (df : Frame) (c : String) (vs : List Cell)
    (h : vs.length = df.length) (hne : df ≠ []) : df.setCol c vs ≠ [] := by
  intro hcontra
  have := Frame.setCol_length df c vs h
  rw [hcontra] at this
  simp at this
  exact hne (List.length_eq_zero.mp this.symm)

theorem Frame.getCol_setCol_self (df : Frame) (c : String) (vs : List Cell)
    (h : vs.length = df.length) : (df.setCol c vs).getCol c = vs := by
  induction df generalizing vs with
  | nil =>
    cases vs with
    | nil => rfl
    | cons v vt => simp at h
  | cons r rs ih =>
    cases vs with
    | nil => simp at h
    | cons v vt =>
      simp only [Frame.setCol, List.zipWith_cons_cons, Frame.getCol, List.map_cons]
      rw [Row.get_set_self]
      have hlen : vt.length = rs.length := by simpa using h
      have := ih vt hlen
      simp only [Frame.setCol, Frame.getCol] at this
      rw [this]

theorem Frame.getCol_setCol_ne (df : Frame) (c c' : String) (vs : List Cell)
    (h : vs.length = df.length) (hcc : c' ≠ c) :
    (df.setCol c vs).getCol c' = df.getCol c' := by
  induction df generalizing vs with
  | nil => cases vs <;> rfl
  | cons r rs ih =>
    cases vs with
    | nil => simp at h
    | cons v vt =>
      simp only [Frame.setCol, List.zipWith_cons_cons, Frame.getCol, List.map_cons]
      rw [Row.get_set_ne _ _ _ _ hcc]
      have hlen : vt.length = rs.length := by simpa using h
      have := ih vt hlen
      simp only [Frame.setCol, Frame.getCol] at this
      rw [this]

theorem Frame.hasCol_setCol (df : Frame) (c c' : String) (vs : List Cell)
    (h : vs.length = df.length) (hne : df ≠ []) :
    (df.setCol c vs).hasCol c' = (df.hasCol c' || (c' == c)) := by
  cases df with
  | nil => exact absurd rfl hne
  | cons r rs =>
    cases vs with
    | nil => simp at h
    | cons v vt =>
      simp only [Frame.setCol, List.zipWith_cons_cons, Frame.hasCol]
      exact Row.has_set r c c' v

theorem mkStats_length (pts : List ℚ) : (mkStats pts).length = pts.length := by
  simp [mkStats]

theorem mkStats_ne_nil (pts : List ℚ) (h : pts ≠ []) : mkStats pts ≠ [] := by
  cases pts with
  | nil => exact absurd rfl h
  | cons p ps => simp [mkStats]

theorem mkStats_hasCol (pts : List ℚ) (h : pts ≠ []) (c : String) :
    (mkStats pts).hasCol c = (c == "points") := by
  cases pts with
  | nil => exact absurd rfl h
  | cons p ps =>
    simp only [mkStats, List.map_cons, Frame.hasCol, Row.has, List.find?]
    by_cases hc : c = "points"
    · subst hc; simp
    · have h1 : ("points" == c) = false := beq_eq_false_iff_ne.mpr (Ne.symm hc)
      have h2 : (c == "points") = false := beq_eq_false_iff_ne.mpr hc
      rw [h1, h2]
      rfl

theorem mkStats_getCol_points (pts : List ℚ) :
    (mkStats pts).getCol "points" = pts.map some := by
  simp only [mkStats, Frame.getCol, List.map_map]
  refine List.map_congr_left (fun p hp => ?_)
  simp [Row.get, List.find?]

theorem rollingMean_getElem (w : ℕ) (xs : List Cell) (i : ℕ) (h : i < xs.length) :
    (rollingMean w xs)[i]? = some (cmean ((xs.take (i + 1)).drop (i + 1 - w))) := by
  unfold rollingMean
  rw [List.getElem?_map, List.getElem?_range h]
  rfl

theorem expandingMean_getElem (xs : List Cell) (i : ℕ) (h : i < xs.length) :
    (expandingMean xs)[i]? = some (cmean (xs.take (i + 1))) := by
  unfold expandingMean
  rw [List.getElem?_map, List.getElem?_range h]
  rfl

theorem shift1_getElem_zero (xs : List Cell) (h : xs ≠ []) :
    (shift1 xs)[0]? = some none := by
  unfold shift1
  rw [List.dropLast_eq_take, List.getElem?_take]
  have hlen : 0 < xs.length := List.length_pos.mpr h
  rw [if_pos (by simp only [List.length_cons]; omega)]
  exact List.getElem?_cons_zero

theorem shift1_getElem (xs : List Cell) (i : ℕ) (h1 : 1 ≤ i) (h2 : i < xs.length) :
    (shift1 xs)[i]? = xs[i - 1]? := by
  unfold shift1
  rw [List.dropLast_eq_take, List.getElem?_take,
    if_pos (by simp only [List.length_cons]; omega)]
  obtain ⟨j, rfl⟩ : ∃ j, i = j + 1 := ⟨i - 1, by omega⟩
  rw [List.getElem?_cons_succ]
  simp

theorem cmean_map_some (l : List ℚ) (h : l ≠ []) :
    cmean (l.map some) = some (l.sum / l.length) := by
  unfold cmean nnVals
  rw [List.filterMap_map]
  have hid : (id ∘ some : ℚ → Option ℚ) = some := rfl
  rw [hid, List.filterMap_some,
    if_neg (by simpa [List.length_eq_zero] using h)]


theorem rollingStep_pos (w : ℕ) (df : Frame) (c p : String) (h : df.hasCol c = true) :
    rollingStep w df (c, p) =
      df.setCol (p ++ "_avg_" ++ toString w) (shift1 (rollingMean w (df.getCol c))) := by
  unfold rollingStep
  rw [if_pos h]

theorem rollingStep_neg (w : ℕ) (df : Frame) (c p : String) (h : df.hasCol c = false) :
    rollingStep w df (c, p) = df := by
  unfold rollingStep
  rw [if_neg (by simp [h])]

theorem pctStep_neg (df : Frame) (c : String) (h : df.hasCol c = false) :
    pctStep df c = df := by
  unfold pctStep
  rw [if_neg (by simp [h])]

theorem seasonStep_pos (df : Frame) (c p : String) (h : df.hasCol c = true) :
    seasonStep df (c, p) =
      df.setCol ("season_" ++ p ++ "_avg") (shift1 (expandingMean (df.getCol c))) := by
  unfold seasonStep
  rw [if_pos h]

theorem seasonStep_neg (df : Frame) (c p : String) (h : df.hasCol c = false) :
    seasonStep df (c, p) = df := by
  unfold seasonStep
  rw [if_neg (by simp [h])]

theorem statFold_points (w : ℕ) (df : Frame) (hne : df ≠ [])
    (hp : df.hasCol "points" = true)
    (hr : df.hasCol "rebounds" = false)
    (ha : df.hasCol "assists" = false)
    (hm : df.hasCol "minutes" = false)
    (hbr : ("rebounds" == "pts" ++ "_avg_" ++ toString w) = false)
    (hba : ("assists" == "pts" ++ "_avg_" ++ toString w) = false)
    (hbm : ("minutes" == "pts" ++ "_avg_" ++ toString w) = false) :
    statCols.foldl (rollingStep w) df =
      df.setCol ("pts" ++ "_avg_" ++ toString w)
        (shift1 (rollingMean w (df.getCol "points"))) := by
  simp only [statCols, List.foldl_cons, List.foldl_nil]
  rw [rollingStep_pos w df "points" "pts" hp]
  set df1 := df.setCol ("pts" ++ "_avg_" ++ toString w)
    (shift1 (rollingMean w (df.getCol "points"))) with hdf1
  have hlen : (shift1 (rollingMean w (df.getCol "points"))).length = df.length := by
    rw [shift1_length, rollingMean_length, Frame.getCol_length]
  have h1 : ∀ c, df1.hasCol c = (df.hasCol c || (c == "pts" ++ "_avg_" ++ toString w)) :=
    fun c => Frame.hasCol_setCol df _ c _ hlen hne
  rw [rollingStep_neg w df1 "rebounds" "reb" (by rw [h1, hr, hbr]; rfl)]
  rw [rollingStep_neg w df1 "assists" "ast" (by rw [h1, ha, hba]; rfl)]
  rw [rollingStep_neg w df1 "minutes" "min" (by rw [h1, hm, hbm]; rfl)]


theorem createFeatures_mkStats (pts : List ℚ) (hne : pts ≠ []) :
    createFeatures (mkStats pts) =
      (((((((mkStats pts).setCol "pts_avg_5" (shift1 (rollingMean 5 (pts.map some)))).setCol
        "pts_avg_10" (shift1 (rollingMean 10 (pts.map some)))).setCol
        "pts_avg_15" (shift1 (rollingMean 15 (pts.map some)))).setCol
        "season_pts_avg" (shift1 (expandingMean (pts.map some)))).setCol
        "rest_days" (List.replicate pts.length (some 1))).setCol
        "is_home" (List.replicate pts.length (some 1))).setCol
        "opponent_def_rating" (List.replicate pts.length (some 110)) := by
  have hne0 : mkStats pts ≠ [] := mkStats_ne_nil pts hne
  have hlen0 : (mkStats pts).length = pts.length := mkStats_length pts
  have hH0 : ∀ c, (mkStats pts).hasCol c = (c == "points") := mkStats_hasCol pts hne
  have hg0 : (mkStats pts).getCol "points" = pts.map some := mkStats_getCol_points pts
  unfold createFeatures
  rw [if_neg (by rw [hlen0]; intro h; exact hne (List.length_eq_zero.mp h))]
  simp only [windows, List.foldl_cons, List.foldl_nil]
  have hgd : ¬((mkStats pts).hasCol "game_date" = true) := by
    rw [hH0]
    decide
  rw [if_neg hgd]
  rw [statFold_points 5 (mkStats pts) hne0 (by rw [hH0]; decide) (by rw [hH0]; decide)
      (by rw [hH0]; decide) (by rw [hH0]; decide) (by decide) (by decide) (by decide)]
  rw [hg0, show ("pts" ++ "_avg_" ++ toString (5 : ℕ)) = "pts_avg_5" by decide]
  set d1 := (mkStats pts).setCol "pts_avg_5" (shift1 (rollingMean 5 (pts.map some))) with hd1
  have hlen1s : (shift1 (rollingMean 5 (pts.map some))).length = (mkStats pts).length := by
    rw [shift1_length, rollingMean_length, List.length_map, hlen0]
  have hne1 : d1 ≠ [] := Frame.setCol_ne_nil _ _ _ hlen1s hne0
  have hlen1 : d1.length = pts.length := by
    rw [hd1, Frame.setCol_length _ _ _ hlen1s, hlen0]
  have hH1 : ∀ c, d1.hasCol c = ((c == "points") || (c == "pts_avg_5")) := by
    intro c
    rw [hd1, Frame.hasCol_setCol _ _ _ _ hlen1s hne0, hH0]
  have hg1 : d1.getCol "points" = pts.map some := by
    rw [hd1, Frame.getCol_setCol_ne _ _ _ _ hlen1s (by decide), hg0]
  rw [statFold_points 10 d1 hne1 (by rw [hH1]; decide) (by rw [hH1]; decide) (by rw [hH1]; decide) (by rw [hH1]; decide)
      (by decide) (by decide) (by decide)]
  rw [hg1, show ("pts" ++ "_avg_" ++ toString (10 : ℕ)) = "pts_avg_10" by decide]
  set d2 := d1.setCol "pts_avg_10" (shift1 (rollingMean 10 (pts.map some))) with hd2
  have hlen2s : (shift1 (rollingMean 10 (pts.map some))).length = d1.length := by
    rw [shift1_length, rollingMean_length, List.length_map, hlen1]
  have hne2 : d2 ≠ [] := Frame.setCol_ne_nil _ _ _ hlen2s hne1
  have hlen2 : d2.length = pts.length := by
    rw [hd2, Frame.setCol_length _ _ _ hlen2s, hlen1]
  have hH2 : ∀ c, d2.hasCol c = (((c == "points") || (c == "pts_avg_5")) || (c == "pts_avg_10")) := by
    intro c
    rw [hd2, Frame.hasCol_setCol _ _ _ _ hlen2s hne1, hH1]
  have hg2 : d2.getCol "points" = pts.map some := by
    rw [hd2, Frame.getCol_setCol_ne _ _ _ _ hlen2s (by decide), hg1]
  rw [statFold_points 15 d2 hne2 (by rw [hH2]; decide) (by rw [hH2]; decide) (by rw [hH2]; decide) (by rw [hH2]; decide)
      (by decide) (by decide) (by decide)]
  rw [hg2, show ("pts" ++ "_avg_" ++ toString (15 : ℕ)) = "pts_avg_15" by decide]
  set d3 := d2.setCol "pts_avg_15" (shift1 (rollingMean 15 (pts.map some))) with hd3
  have hlen3s : (shift1 (rollingMean 15 (pts.map some))).length = d2.length := by
    rw [shift1_length, rollingMean_length, List.length_map, hlen2]
  have hne3 : d3 ≠ [] := Frame.setCol_ne_nil _ _ _ hlen3s hne2
  have hlen3 : d3.length = pts.length := by
    rw [hd3, Frame.setCol_length _ _ _ hlen3s, hlen2]
  have hH3 : ∀ c, d3.hasCol c =
      ((((c == "points") || (c == "pts_avg_5")) || (c == "pts_avg_10")) || (c == "pts_avg_15")) := by
    intro c
    rw [hd3, Frame.hasCol_setCol _ _ _ _ hlen3s hne2, hH2]
  have hg3 : d3.getCol "points" = pts.map some := by
    rw [hd3, Frame.getCol_setCol_ne _ _ _ _ hlen3s (by decide), hg2]
  simp only [pctCols, List.foldl_cons, List.foldl_nil]
  rw [pctStep_neg d3 "fg_pct" (by rw [hH3]; decide), pctStep_neg d3 "fg3_pct" (by rw [hH3]; decide),
    pctStep_neg d3 "ft_pct" (by rw [hH3]; decide)]
  simp only [statCols, List.foldl_cons, List.foldl_nil]
  rw [seasonStep_pos d3 "points" "pts" (by rw [hH3]; decide)]
  rw [hg3, show ("season_" ++ "pts" ++ "_avg") = "season_pts_avg" by decide]
  set d4 := d3.setCol "season_pts_avg" (shift1 (expandingMean (pts.map some))) with hd4
  have hlen4s : (shift1 (expandingMean (pts.map some))).length = d3.length := by
    rw [shift1_length, expandingMean_length, List.length_map, hlen3]
  have hne4 : d4 ≠ [] := Frame.setCol_ne_nil _ _ _ hlen4s hne3
  have hlen4 : d4.length = pts.length := by
    rw [hd4, Frame.setCol_length _ _ _ hlen4s, hlen3]
  have hH4 : ∀ c, d4.hasCol c =
      (((((c == "points") || (c == "pts_avg_5")) || (c == "pts_avg_10")) || (c == "pts_avg_15"))
        || (c == "season_pts_avg")) := by
    intro c
    rw [hd4, Frame.hasCol_setCol _ _ _ _ hlen4s hne3, hH3]
  rw [seasonStep_neg d4 "rebounds" "reb" (by rw [hH4]; decide), seasonStep_neg d4 "assists" "ast" (by rw [hH4]; decide),
    seasonStep_neg d4 "minutes" "min" (by rw [hH4]; decide)]
  have hrd : ¬(d4.hasCol "rest_days" = true) := by
    rw [hH4]
    decide
  rw [if_neg hrd]
  rw [show d4.constCol 1 = List.replicate pts.length (some 1) by rw [Frame.constCol, hlen4]]
  set d5 := d4.setCol "rest_days" (List.replicate pts.length (some 1)) with hd5
  have hlen5s : (List.replicate pts.length (some (1 : ℚ))).length = d4.length := by
    rw [List.length_replicate, hlen4]
  have hne5 : d5 ≠ [] := Frame.setCol_ne_nil _ _ _ hlen5s hne4
  have hlen5 : d5.length = pts.length := by
    rw [hd5, Frame.setCol_length _ _ _ hlen5s, hlen4]
  have hH5 : ∀ c, d5.hasCol c =
      ((((((c == "points") || (c == "pts_avg_5")) || (c == "pts_avg_10")) || (c == "pts_avg_15"))
        || (c == "season_pts_avg")) || (c == "rest_days")) := by
    intro c
    rw [hd5, Frame.hasCol_setCol _ _ _ _ hlen5s hne4, hH4]
  have hih : ¬(d5.hasCol "is_home" = true) := by
    rw [hH5]
    decide
  rw [if_neg hih]
  rw [show d5.constCol 1 = List.replicate pts.length (some 1) by rw [Frame.constCol, hlen5]]
  set d6 := d5.setCol "is_home" (List.replicate pts.length (some 1)) with hd6
  have hlen6s : (List.replicate pts.length (some (1 : ℚ))).length = d5.length := by
    rw [List.length_replicate, hlen5]
  have hne6 : d6 ≠ [] := Frame.setCol_ne_nil _ _ _ hlen6s hne5
  have hlen6 : d6.length = pts.length := by
    rw [hd6, Frame.setCol_length _ _ _ hlen6s, hlen5]
  have hH6 : ∀ c, d6.hasCol c =
      (((((((c == "points") || (c == "pts_avg_5")) || (c == "pts_avg_10")) || (c == "pts_avg_15"))
        || (c == "season_pts_avg")) || (c == "rest_days")) || (c == "is_home")) := by
    intro c
    rw [hd6, Frame.hasCol_setCol _ _ _ _ hlen6s hne5, hH5]
  have hod : ¬(d6.hasCol "opponent_def_rating" = true) := by
    rw [hH6]
    decide
  rw [if_neg hod]
  rw [show d6.constCol 110 = List.replicate pts.length (some 110) by rw [Frame.constCol, hlen6]]


theorem createFeatures_mkStats_cols (pts : List ℚ) (hne : pts ≠ []) :
    (∀ w ∈ windows, (createFeatures (mkStats pts)).getCol ("pts_avg_" ++ toString w) =
        shift1 (rollingMean w (pts.map some))) ∧
    (createFeatures (mkStats pts)).getCol "season_pts_avg" =
        shift1 (expandingMean (pts.map some)) ∧
    featuresPresentFor (createFeatures (mkStats pts)) "points" =
      ["is_home", "rest_days", "opponent_def_rating",
       "pts_avg_5", "pts_avg_10", "pts_avg_15", "season_pts_avg"] := by
  have hne0 : mkStats pts ≠ [] := mkStats_ne_nil pts hne
  have hlen0 : (mkStats pts).length = pts.length := mkStats_length pts
  have hH0 : ∀ c, (mkStats pts).hasCol c = (c == "points") := mkStats_hasCol pts hne
  set d0 := mkStats pts with hd0
  set d1 := d0.setCol "pts_avg_5" (shift1 (rollingMean 5 (pts.map some))) with hd1
  set d2 := d1.setCol "pts_avg_10" (shift1 (rollingMean 10 (pts.map some))) with hd2
  set d3 := d2.setCol "pts_avg_15" (shift1 (rollingMean 15 (pts.map some))) with hd3
  set d4 := d3.setCol "season_pts_avg" (shift1 (expandingMean (pts.map some))) with hd4
  set d5 := d4.setCol "rest_days" (List.replicate pts.length (some 1)) with hd5
  set d6 := d5.setCol "is_home" (List.replicate pts.length (some 1)) with hd6
  set d7 := d6.setCol "opponent_def_rating" (List.replicate pts.length (some 110)) with hd7
  have hcf : createFeatures (mkStats pts) = d7 := by
    rw [createFeatures_mkStats pts hne, hd7, hd6, hd5, hd4, hd3, hd2, hd1, hd0]
  have hlen1s : (shift1 (rollingMean 5 (pts.map some))).length = d0.length := by
    rw [shift1_length, rollingMean_length, List.length_map, hlen0]
  have hne1 : d1 ≠ [] := Frame.setCol_ne_nil _ _ _ hlen1s hne0
  have hlen1 : d1.length = pts.length := by
    rw [hd1, Frame.setCol_length _ _ _ hlen1s, hlen0]
  have hlen2s : (shift1 (rollingMean 10 (pts.map some))).length = d1.length := by
    rw [shift1_length, rollingMean_length, List.length_map, hlen1]
  have hne2 : d2 ≠ [] := Frame.setCol_ne_nil _ _ _ hlen2s hne1
  have hlen2 : d2.length = pts.length := by
    rw [hd2, Frame.setCol_length _ _ _ hlen2s, hlen1]
  have hlen3s : (shift1 (rollingMean 15 (pts.map some))).length = d2.length := by
    rw [shift1_length, rollingMean_length, List.length_map, hlen2]
  have hne3 : d3 ≠ [] := Frame.setCol_ne_nil _ _ _ hlen3s hne2
  have hlen3 : d3.length = pts.length := by
    rw [hd3, Frame.setCol_length _ _ _ hlen3s, hlen2]
  have hlen4s : (shift1 (expandingMean (pts.map some))).length = d3.length := by
    rw [shift1_length, expandingMean_length, List.length_map, hlen3]
  have hne4 : d4 ≠ [] := Frame.setCol_ne_nil _ _ _ hlen4s hne3
  have hlen4 : d4.length = pts.length := by
    rw [hd4, Frame.setCol_length _ _ _ hlen4s, hlen3]
  have hlen5s : (List.replicate pts.length (some (1 : ℚ))).length = d4.length := by
    rw [List.length_replicate, hlen4]
  have hne5 : d5 ≠ [] := Frame.setCol_ne_nil _ _ _ hlen5s hne4
  have hlen5 : d5.length = pts.length := by
    rw [hd5, Frame.setCol_length _ _ _ hlen5s, hlen4]
  have hlen6s : (List.replicate pts.length (some (1 : ℚ))).length = d5.length := by
    rw [List.length_replicate, hlen5]
  have hne6 : d6 ≠ [] := Frame.setCol_ne_nil _ _ _ hlen6s hne5
  have hlen6 : d6.length = pts.length := by
    rw [hd6, Frame.setCol_length _ _ _ hlen6s, hlen5]
  have hlen7s : (List.replicate pts.length (some (110 : ℚ))).length = d6.length := by
    rw [List.length_replicate, hlen6]
  have hne7 : d7 ≠ [] := Frame.setCol_ne_nil _ _ _ hlen7s hne6
  have hH1 : ∀ c, d1.hasCol c = ((c == "points") || (c == "pts_avg_5")) := by
    intro c
    rw [hd1, Frame.hasCol_setCol _ _ _ _ hlen1s hne0, hH0]
  have hH2 : ∀ c, d2.hasCol c = (((c == "points") || (c == "pts_avg_5")) || (c == "pts_avg_10")) := by
    intro c
    rw [hd2, Frame.hasCol_setCol _ _ _ _ hlen2s hne1, hH1]
  have hH3 : ∀ c, d3.hasCol c =
      ((((c == "points") || (c == "pts_avg_5")) || (c == "pts_avg_10")) || (c == "pts_avg_15")) := by
    intro c
    rw [hd3, Frame.hasCol_setCol _ _ _ _ hlen3s hne2, hH2]
  have hH4 : ∀ c, d4.hasCol c =
      (((((c == "points") || (c == "pts_avg_5")) || (c == "pts_avg_10")) || (c == "pts_avg_15"))
        || (c == "season_pts_avg")) := by
    intro c
    rw [hd4, Frame.hasCol_setCol _ _ _ _ hlen4s hne3, hH3]
  have hH5 : ∀ c, d5.hasCol c =
      ((((((c == "points") || (c == "pts_avg_5")) || (c == "pts_avg_10")) || (c == "pts_avg_15"))
        || (c == "season_pts_avg")) || (c == "rest_days")) := by
    intro c
    rw [hd5, Frame.hasCol_setCol _ _ _ _ hlen5s hne4, hH4]
  have hH6 : ∀ c, d6.hasCol c =
      (((((((c == "points") || (c == "pts_avg_5")) || (c == "pts_avg_10")) || (c == "pts_avg_15"))
        || (c == "season_pts_avg")) || (c == "rest_days")) || (c == "is_home")) := by
    intro c
    rw [hd6, Frame.hasCol_setCol _ _ _ _ hlen6s hne5, hH5]
  have hH7 : ∀ c, d7.hasCol c =
      ((((((((c == "points") || (c == "pts_avg_5")) || (c == "pts_avg_10")) || (c == "pts_avg_15"))
        || (c == "season_pts_avg")) || (c == "rest_days")) || (c == "is_home"))
        || (c == "opponent_def_rating")) := by
    intro c
    rw [hd7, Frame.hasCol_setCol _ _ _ _ hlen7s hne6, hH6]
  refine ⟨?_, ?_, ?_⟩
  · intro w hw
    have hw' : w = 5 ∨ w = 10 ∨ w = 15 := by simpa [windows] using hw
    have hb7 : ("pts_avg_" ++ toString w) ≠ "opponent_def_rating" := by
      rcases hw' with rfl | rfl | rfl <;> decide
    have hb6 : ("pts_avg_" ++ toString w) ≠ "is_home" := by
      rcases hw' with rfl | rfl | rfl <;> decide
    have hb5 : ("pts_avg_" ++ toString w) ≠ "rest_days" := by
      rcases hw' with rfl | rfl | rfl <;> decide
    have hb4 : ("pts_avg_" ++ toString w) ≠ "season_pts_avg" := by
      rcases hw' with rfl | rfl | rfl <;> decide
    rw [hcf, hd7, Frame.getCol_setCol_ne _ _ _ _ hlen7s hb7,
      hd6, Frame.getCol_setCol_ne _ _ _ _ hlen6s hb6,
      hd5, Frame.getCol_setCol_ne _ _ _ _ hlen5s hb5,
      hd4, Frame.getCol_setCol_ne _ _ _ _ hlen4s hb4]
    rcases hw' with rfl | rfl | rfl
    · rw [hd3, Frame.getCol_setCol_ne _ _ _ _ hlen3s (by decide),
        hd2, Frame.getCol_setCol_ne _ _ _ _ hlen2s (by decide),
        hd1]
      exact Frame.getCol_setCol_self _ _ _ hlen1s
    · rw [hd3, Frame.getCol_setCol_ne _ _ _ _ hlen3s (by decide), hd2]
      exact Frame.getCol_setCol_self _ _ _ hlen2s
    · rw [hd3]
      exact Frame.getCol_setCol_self _ _ _ hlen3s
  · rw [hcf, hd7, Frame.getCol_setCol_ne _ _ _ _ hlen7s (by decide),
      hd6, Frame.getCol_setCol_ne _ _ _ _ hlen6s (by decide),
      hd5, Frame.getCol_setCol_ne _ _ _ _ hlen5s (by decide),
      hd4]
    exact Frame.getCol_setCol_self _ _ _ hlen4s
  · rw [hcf]
    unfold featuresPresentFor
    rw [show getFeaturesForTarget "points" =
      ["is_home", "rest_days", "opponent_def_rating",
       "pts_avg_5", "pts_avg_10", "pts_avg_15",
       "min_avg_5", "min_avg_10",
       "season_pts_avg", "season_min_avg",
       "fg_pct_avg_10", "fg3_pct_avg_10", "ft_pct_avg_10"] from by decide]
    simp only [List.filter, hH7]
    decide


theorem rolling_uses_available_prior_games (pts : List ℚ) (i w : ℕ)
    (hw : w ∈ windows) (h1 : 1 ≤ i) (hiw : i < w) (hil : i < pts.length) :
    ((createFeatures (mkStats pts)).getCol ("pts_avg_" ++ toString w))[i]? =
      some (some ((pts.take i).sum / (i : ℚ))) ∧
    ((createFeatures (mkStats pts)).getCol ("pts_avg_" ++ toString w))[0]? = some none ∧
    ((createFeatures (mkStats pts)).getCol "season_pts_avg")[0]? = some none ∧
    (∀ r0, (createFeatures (mkStats pts))[0]? = some r0 →
      r0 ∉ dropnaSubset (createFeatures (mkStats pts))
        ("points" :: featuresPresentFor (createFeatures (mkStats pts)) "points")) := by
  have hne : pts ≠ [] := by
    intro h
    rw [h] at hil
    simp at hil
  obtain ⟨hcols, hseason, hfp⟩ := createFeatures_mkStats_cols pts hne
  have hcol := hcols w hw
  have hrlen : (rollingMean w (pts.map some)).length = pts.length := by
    rw [rollingMean_length, List.length_map]
  have hrne : rollingMean w (pts.map some) ≠ [] := by
    intro h
    have := congrArg List.length h
    rw [hrlen] at this
    simp at this
    exact hne this
  have helen : (expandingMean (pts.map some)).length = pts.length := by
    rw [expandingMean_length, List.length_map]
  have hene : expandingMean (pts.map some) ≠ [] := by
    intro h
    have := congrArg List.length h
    rw [helen] at this
    simp at this
    exact hne this
  refine ⟨?_, ?_, ?_, ?_⟩
  · rw [hcol, shift1_getElem _ i h1 (by rw [hrlen]; exact hil),
      rollingMean_getElem w (pts.map some) (i - 1) (by rw [List.length_map]; omega)]
    rw [show i - 1 + 1 = i from by omega, show i - w = 0 from by omega, List.drop_zero,
      ← List.map_take]
    have htne : pts.take i ≠ [] := by
      intro h
      have hlen2 := congrArg List.length h
      rw [List.length_take] at hlen2
      simp only [List.length_nil] at hlen2
      omega
    rw [cmean_map_some _ htne]
    have hlt : ((pts.take i).length : ℚ) = (i : ℚ) := by
      rw [List.length_take]
      congr 1
      omega
    rw [hlt]
  · rw [hcol]
    exact shift1_getElem_zero _ hrne
  · rw [hseason]
    exact shift1_getElem_zero _ hene
  · intro r0 h0 hmem
    have h5col : ((createFeatures (mkStats pts)).getCol "pts_avg_5")[0]? = some none := by
      have := hcols 5 (by decide)
      rw [show ("pts_avg_" ++ toString (5 : ℕ)) = "pts_avg_5" from by decide] at this
      rw [this]
      refine shift1_getElem_zero _ ?_
      intro h
      have := congrArg List.length h
      rw [rollingMean_length, List.length_map] at this
      simp at this
      exact hne this
    have hget : r0.get "pts_avg_5" = none := by
      have hmap : ((createFeatures (mkStats pts)).getCol "pts_avg_5")[0]? =
          ((createFeatures (mkStats pts))[0]?).map (fun r => r.get "pts_avg_5") := by
        unfold Frame.getCol
        rw [List.getElem?_map]
      rw [hmap, h0] at h5col
      simpa using h5col
    unfold dropnaSubset at hmem
    have hall := (List.mem_filter.mp hmem).2
    rw [List.all_eq_true] at hall
    have h5mem : "pts_avg_5" ∈
        ("points" :: featuresPresentFor (createFeatures (mkStats pts)) "points") := by
      rw [hfp]
      decide
    have := hall "pts_avg_5" h5mem
    rw [hget] at this
    simp at this


theorem rolling_uses_available_prior_games_witness :
    ((createFeatures (mkStats [3, 5, 7, 9, 11])).getCol ("pts_avg_" ++ toString (5 : ℕ)))[4]? =
      some (some 6) ∧
    ((createFeatures (mkStats [3, 5, 7, 9, 11])).getCol ("pts_avg_" ++ toString (5 : ℕ)))[0]? =
      some none ∧
    ((createFeatures (mkStats [3, 5, 7, 9, 11])).getCol "season_pts_avg")[0]? = some none ∧
    ([("points", some 3), ("pts_avg_5", none), ("pts_avg_10", none), ("pts_avg_15", none),
      ("season_pts_avg", none), ("rest_days", some 1), ("is_home", some 1),
      ("opponent_def_rating", some 110)] : Row) ∉
      dropnaSubset (createFeatures (mkStats [3, 5, 7, 9, 11]))
        ("points" :: featuresPresentFor (createFeatures (mkStats [3, 5, 7, 9, 11])) "points") := by
  have h := rolling_uses_available_prior_games [3, 5, 7, 9, 11] 4 5
    (by decide) (by decide) (by decide) (by decide)
  exact ⟨h.1.trans (by decide), h.2.1, h.2.2.1, h.2.2.2 _ (by decide)⟩

end NBA
